import Mathlib

/-!
Verification development for the `run_genomcmcgan` driver
(src/genomcmcgan.py) of the Genomcmcgan repository.

The driver couples discriminator training with MCMC sampling in a loop
(lines 65-146 of src/genomcmcgan.py).  The collaborator classes
(`MCMCGAN`, `Discriminator`, `Genobuilder`) live outside the provided
source; their observable outputs at each iteration (validation accuracy
from `fit`, the sample matrix `mcmcgan.samples`, the adapted step sizes
in `sample_stats["step_size"]`) are modelled as an environment oracle
indexed by the iteration number, which is fully general because the
orchestrator calls them exactly once per iteration in a fixed order.

Numeric values are modelled over ℚ.  The accuracy threshold `0.55` of
line 101 is written `11/20`; the Python float comparison and the
rational comparison agree on every accuracy value appearing in the
claims (0.4, 0.5, 0.6).
-/

/-- Per-parameter state held by the Parameter Store (`genob.params` /
`genob.inferable_params`): name, inferable flag, bounds, point estimate
(`p.init`), proposal step size (`p.step_size`) and the stored proposal
trace (`p.proposals`).  Only the inferable parameters are touched by the
loop (lines 129-134), so a parameter list in this development is the
fixed-order list of inferable parameters. -/
structure Param where
  name : String
  inferable : Bool
  lower : ℚ
  upper : ℚ
  init : ℚ
  step_size : ℚ
  proposals : List ℚ
deriving DecidableEq

/-- Observable outputs of the external collaborators at each iteration
`i ≥ 1`: `acc i` is the validation accuracy returned by
`discriminator.module.fit` (line 88), `samples i` is the per-parameter
list of posterior draws `mcmcgan.samples` after `run_chain` (line 113),
and `stepSize i` is the per-parameter final adapted kernel step size
`sample_stats["step_size"][i][-1]` (line 132). -/
structure Env where
  acc : ℕ → ℚ
  samples : ℕ → List (List ℚ)
  stepSize : ℕ → List ℚ

/-- Events recorded by the loop, used to state ordering properties:
`train i a` is a completed discriminator training phase at iteration `i`
reporting accuracy `a` (lines 87-95); `sample i` is a completed MCMC
sampling phase at iteration `i` (lines 106-113). -/
inductive Event where
  | train : ℕ → ℚ → Event
  | sample : ℕ → Event
deriving DecidableEq

/-- Terminal status of the iteration loop: `converged` when the
`accs[-1] < 0.55` break of lines 101-103 fires, `maxIters` when the
`while max_num_iters != mcmcgan.iter` condition of line 70 fails. -/
inductive Status where
  | converged : Status
  | maxIters : Status
deriving DecidableEq

/-- Mutable state threaded through the iteration loop: the iteration
counter `mcmcgan.iter`, the accuracy history `accs`, the Parameter Store
contents, the `medians` variable of line 127 (`none` before its first
assignment, mirroring that the Python name is unbound until a sampling
phase completes), phase counters and the event trace. -/
structure RunState where
  iter : ℕ
  accs : List ℚ
  params : List Param
  medians : Option (List ℚ)
  trainCount : ℕ
  sampleCount : ℕ
  trace : List Event
deriving DecidableEq

/-- Terminal result of the loop: status together with the final state. -/
structure Final where
  status : Status
  state : RunState
deriving DecidableEq

/-- State at function entry.  The initial value of the iteration counter
`mcmcgan.iter` is set by the `MCMCGAN` constructor, outside the provided
source; it is 0 here, which is forced by the spec's
`max_iterations == 0` edge case (the loop of line 70 must run zero
times) and by the spec's contract that the loop runs `max_iterations`
iterations. -/
def initState (ps : List Param) : RunState :=
  { iter := 0
    accs := []
    params := ps
    medians := none
    trainCount := 0
    sampleCount := 0
    trace := [] }

/-- Insertion of a rational into a sorted list, keeping it sorted. -/
def insertSorted (x : ℚ) : List ℚ → List ℚ
  | [] => [x]
  | y :: ys => if x ≤ y then x :: y :: ys else y :: insertSorted x ys

/-- Sorting in nondecreasing order (insertion sort), giving the order
statistics that `np.median` and `np.percentile` read. -/
def sortQ : List ℚ → List ℚ
  | [] => []
  | x :: xs => insertSorted x (sortQ xs)

/-- Median of a list of rationals, as computed by `np.median` on one row
of `mcmcgan.samples` (line 127): midpoint of the two central order
statistics for even length, the central order statistic for odd length. -/
def npMedianQ (l : List ℚ) : ℚ :=
  let s := sortQ l
  let n := l.length
  if n = 0 then 0
  else if n % 2 = 1 then s.getD (n / 2) 0
  else (s.getD (n / 2 - 1) 0 + s.getD (n / 2) 0) / 2

/-- Mean of a list of rationals. -/
def meanQ (l : List ℚ) : ℚ :=
  l.sum / l.length

/-- Population variance, the square of `np.std` (line 128, default
`ddof=0`).  The standard deviation itself is irrational in general, so
comparisons against it are phrased through this square. -/
def varQ (l : List ℚ) : ℚ :=
  meanQ (l.map (fun x => (x - meanQ l) ^ 2))

/-- Modelled from the spec: the empirical `q`-th percentile
(`0 ≤ q ≤ 100`) with numpy's default linear interpolation between order
statistics, needed to state the spec's "new bounds = 2.5/97.5
percentiles" write-back; no percentile computation appears anywhere in
src/genomcmcgan.py. -/
def percQ (l : List ℚ) (q : ℚ) : ℚ :=
  let s := sortQ l
  let n := l.length
  if n = 0 then 0
  else
    let rank := q / 100 * (n - 1)
    let f : ℕ := (Int.floor rank).toNat
    let g := rank - Int.floor rank
    s.getD f 0 + g * (s.getD (f + 1) (s.getD f 0) - s.getD f 0)

/-- Per-parameter write-back performed by lines 132-134 of the source:
the step size becomes the kernel's final adapted step size
(`sample_stats["step_size"][i][-1]`), the proposal trace becomes the
iteration's samples (`mcmcgan.samples[i]`), and the point estimate
becomes the last sample (`mcmcgan.samples[i][-1]`; draws are nonempty in
every run considered here, so `getLast?.getD 0` agrees with Python's
`[-1]`).  The bounds `lower`/`upper` are not written. -/
def updateParam (p : Param) (draws : List ℚ) (stepLast : ℚ) : Param :=
  { p with
    step_size := stepLast
    proposals := draws
    init := draws.getLast?.getD 0 }

/-- Modelled from the spec: the write-back the spec prescribes ("new
point estimate = posterior summary center, new step size = posterior
std, new bounds = percentile interval"); this definition follows the
spec's words and exists only to be compared with `updateParam`, the
write-back of the source.  The step-size clause is expressed through the
variance to stay in ℚ. -/
def specWriteBack (q : Param) (draws : List ℚ) : Prop :=
  q.init = npMedianQ draws ∧
  0 ≤ q.step_size ∧ q.step_size ^ 2 = varQ draws ∧
  q.lower = percQ draws (5/2) ∧ q.upper = percQ draws (195/2)

/-- One pass of the loop body up to and including the training phase
(lines 72-95): advance `mcmcgan.iter`, call `fit`, append the returned
accuracy to `accs`. -/
def afterTrain (env : Env) (s : RunState) : RunState :=
  { s with
    iter := s.iter + 1
    accs := s.accs ++ [env.acc (s.iter + 1)]
    trainCount := s.trainCount + 1
    trace := s.trace ++ [Event.train (s.iter + 1) (env.acc (s.iter + 1))] }

/-- Remainder of the loop body after the convergence check passes
(lines 106-139): run the chain, compute `medians`, and write the
posterior data back into each inferable parameter. -/
def afterSample (env : Env) (s : RunState) : RunState :=
  { s with
    sampleCount := s.sampleCount + 1
    medians := some ((env.samples s.iter).map npMedianQ)
    params := List.zipWith (fun p d => updateParam p d.1 d.2) s.params
      ((env.samples s.iter).zip (env.stepSize s.iter))
    trace := s.trace ++ [Event.sample s.iter] }

/-- Fuel-indexed execution of the `while max_num_iters != mcmcgan.iter`
loop (lines 70-142).  `Sum.inr` is a terminated loop; `Sum.inl s` means
the fuel ran out with the loop still running in state `s` (the loop
itself has no termination guarantee: `max` is an arbitrary Python
integer and the counter only increments). -/
def loopRun (env : Env) (max : ℤ) : ℕ → RunState → RunState ⊕ Final
  | 0, s => Sum.inl s
  | fuel + 1, s =>
    if max = (s.iter : ℤ) then Sum.inr ⟨Status.maxIters, s⟩
    else
      let s1 := afterTrain env s
      if env.acc (s.iter + 1) < 11/20 then Sum.inr ⟨Status.converged, s1⟩
      else loopRun env max fuel (afterSample env s1)

/-- Configuration of a run, from the keyword arguments of
`run_genomcmcgan` (lines 14-29) that the loop observes, plus the
inferable-parameter list loaded from the genobuilder pickle.
`discriminator_model` is accepted by the function signature (line 19)
and carried here; the function body never reads it. -/
structure Config where
  params : List Param
  max_num_iters : ℤ
  seed : ℤ
  discriminator_model : Option String
deriving DecidableEq

/-- A full run of the iteration loop from the initial state. -/
def run (env : Env) (cfg : Config) (fuel : ℕ) : RunState ⊕ Final :=
  loopRun env cfg.max_num_iters fuel (initState cfg.params)

/-- State carried by a loop outcome, terminated or not. -/
def stateOf : RunState ⊕ Final → RunState :=
  Sum.elim id Final.state

/-- Final estimate report of lines 144-145: `print(medians)` succeeds
when the Python name `medians` is bound and raises a `NameError`
otherwise (it is assigned only at line 127, after a completed sampling
phase). -/
def finalReport (f : Final) : Except String (List ℚ) :=
  match f.state.medians with
  | some m => Except.ok m
  | none => Except.error "NameError: medians"

/-- Modelled from the spec: randomness of the collaborators.  The spec
(section 5) names three pseudo-random sub-streams: simulation,
discriminator initialization/batch-shuffling, and MCMC proposals.
The source seeds NumPy from the top-level seed (line 31) and hands the
seed to `MCMCGAN` (line 49), but never seeds the torch stream that
drives discriminator weight initialization (line 59) and `DataLoader`
shuffling (lines 80, 84); that stream starts from an ambient state
independent of the seed.  A behavior maps the pair (top-level seed,
ambient torch-stream state) to the collaborators' observable outputs. -/
structure RngBehavior where
  ofStreams : ℤ → ℕ → Env

/-- A full run given collaborator randomness: the NumPy/MCMC streams are
derived from `cfg.seed`, the discriminator stream from the ambient state
`torch0`, which the source never ties to the seed. -/
def runSeeded (b : RngBehavior) (cfg : Config) (torch0 : ℕ) (fuel : ℕ) :
    RunState ⊕ Final :=
  run (b.ofStreams cfg.seed torch0) cfg fuel

/-- The sequence of parameter-estimate summaries a run produces: the
last `medians` value together with each parameter's point estimate and
step size, which is what the driver prints and stores. -/
def estimateSummaries (r : RunState ⊕ Final) : Option (List ℚ) × List (ℚ × ℚ) :=
  ((stateOf r).medians, (stateOf r).params.map (fun p => (p.init, p.step_size)))

/-- Accuracy history after `k` completed training phases. -/
def accsUpTo (env : Env) (k : ℕ) : List ℚ :=
  (List.range k).map (fun j => env.acc (j + 1))

/-- Event trace after `k` fully completed iterations (each contributes a
training phase followed by a sampling phase). -/
def fullTrace (env : Env) (k : ℕ) : List Event :=
  (List.range k).flatMap (fun j => [Event.train (j + 1) (env.acc (j + 1)), Event.sample (j + 1)])

/-- Parameter Store contents after `k` completed sampling phases,
obtained by folding the write-back of lines 129-134 over the iterations. -/
def paramsAt (env : Env) (ps : List Param) : ℕ → List Param
  | 0 => ps
  | k + 1 =>
    List.zipWith (fun p d => updateParam p d.1 d.2) (paramsAt env ps k)
      ((env.samples (k + 1)).zip (env.stepSize (k + 1)))

/-- Inferable parameter used by the concrete runs below: bounds (0, 100),
point estimate 5, step size 1. -/
def testParam : Param :=
  ⟨"N1", true, 0, 100, 5, 1, []⟩

/-- Environment whose discriminator always reports accuracy 0.6 (above
the threshold) and whose chain always returns the single-parameter draw
list [0, 8] with final kernel step size 1. -/
def envHigh : Env :=
  ⟨fun _ => 3/5, fun _ => [[0, 8]], fun _ => [1]⟩

/-- Environment whose discriminator always reports accuracy exactly 0.5,
as in the spec's Scenario A. -/
def envHalf : Env :=
  ⟨fun _ => 1/2, fun _ => [[0, 8]], fun _ => [1]⟩

/-- Environment for a run with zero inferable parameters: accuracy 0.6,
empty sample matrix. -/
def envEmpty : Env :=
  ⟨fun _ => 3/5, fun _ => [], fun _ => []⟩

/-- Environment whose discriminator reports accuracy 0.6 at iteration 1
and 0.4 from iteration 2 on, as in the spec's Scenario B. -/
def envDrop : Env :=
  ⟨fun i => if i = 1 then 3/5 else 2/5, fun _ => [[0, 8]], fun _ => [1]⟩

/-- Parameter Store entry produced by one envHigh iteration from
`testParam`: point estimate 8 (the last draw), step size 1 (the kernel's
final step size), bounds untouched, proposal trace [0, 8]. -/
def drawnParam : Param :=
  ⟨"N1", true, 0, 100, 8, 1, [0, 8]⟩

/-- Collaborator behavior exhibiting the unseeded torch stream: the
reported accuracy depends on the ambient torch-stream state (weight
initialization and batch shuffling differ), while the NumPy/MCMC draws
do not. -/
def torchSensitive : RngBehavior :=
  ⟨fun _ torch0 => ⟨fun _ => if torch0 = 0 then 3/5 else 1/2, fun _ => [[0, 8]], fun _ => [1]⟩⟩

/-- Configuration with one inferable parameter, one iteration, seed 42,
and a pretrained discriminator path supplied. -/
def cfgWithModel : Config :=
  ⟨[testParam], 1, 42, some "disc.hdf5"⟩

/-- Same configuration as `cfgWithModel` but with no pretrained
discriminator supplied. -/
def cfgNoModel : Config :=
  ⟨[testParam], 1, 42, none⟩

/-- Terminal value of the `envDrop` run with `max_num_iters = 3`:
iteration 1 trains (accuracy 0.6) and samples, iteration 2 trains
(accuracy 0.4) and takes the convergence break. -/
def finalDrop : Final :=
  ⟨Status.converged,
    ⟨2, [3/5, 2/5], [drawnParam], some [4], 2, 1,
      [Event.train 1 (3/5), Event.sample 1, Event.train 2 (2/5)]⟩⟩

/-- Terminal value of the `envHigh` run with `max_num_iters = 1`: one
full iteration (accuracy 0.6, then sampling) and a `maxIters` exit. -/
def finalHigh : Final :=
  ⟨Status.maxIters,
    ⟨1, [3/5], [drawnParam], some [4], 1, 1,
      [Event.train 1 (3/5), Event.sample 1]⟩⟩

/-! ### Helper lemmas about the accuracy history and the event trace -/

theorem accsUpTo_succ (env : Env) (k : ℕ) :
    accsUpTo env (k + 1) = accsUpTo env k ++ [env.acc (k + 1)] := by
  simp [accsUpTo, List.range_succ]

theorem length_accsUpTo (env : Env) (k : ℕ) : (accsUpTo env k).length = k := by
  simp [accsUpTo]

theorem getD_accsUpTo (env : Env) {i k : ℕ} (h : i < k) :
    (accsUpTo env k).getD i 0 = env.acc (i + 1) := by
  rw [List.getD_eq_getElem _ _ (by simpa [accsUpTo] using h)]
  simp [accsUpTo]

theorem mem_accsUpTo (env : Env) {a : ℚ} {k : ℕ} (h : a ∈ accsUpTo env k) :
    ∃ i, a = env.acc i := by
  rcases List.mem_map.mp h with ⟨j, _, rfl⟩
  exact ⟨j + 1, rfl⟩

theorem fullTrace_succ (env : Env) (k : ℕ) :
    fullTrace env (k + 1) =
      fullTrace env k ++ [Event.train (k + 1) (env.acc (k + 1)), Event.sample (k + 1)] := by
  simp [fullTrace, List.range_succ]

theorem sample_mem_fullTrace (env : Env) {n : ℕ} :
    ∀ k, Event.sample n ∈ fullTrace env k → 1 ≤ n ∧ n ≤ k := by
  intro k
  induction k with
  | zero => intro h; simp [fullTrace] at h
  | succ k ih =>
    intro h
    rw [fullTrace_succ] at h
    rcases List.mem_append.mp h with h | h
    · exact ⟨(ih h).1, le_trans (ih h).2 (Nat.le_succ k)⟩
    · simp only [List.mem_cons, List.not_mem_nil, or_false] at h
      rcases h with h | h
      · cases h
      · cases h
        omega

theorem train_sample_sublist (env : Env) {n : ℕ} (h1 : 1 ≤ n) :
    ∀ k, n ≤ k →
      List.Sublist [Event.train n (env.acc n), Event.sample n] (fullTrace env k) := by
  intro k
  induction k with
  | zero => intro h; omega
  | succ k ih =>
    intro h
    rw [fullTrace_succ]
    rcases Nat.lt_or_ge n (k + 1) with hlt | hge
    · exact (ih (by omega)).trans (List.sublist_append_left _ _)
    · have hn : n = k + 1 := by omega
      subst hn
      exact List.sublist_append_right _ _

/-! ### Helper lemmas about the iteration loop -/

theorem stateOf_inl (s : RunState) : stateOf (Sum.inl s : RunState ⊕ Final) = s := rfl

theorem stateOf_inr (f : Final) : stateOf (Sum.inr f : RunState ⊕ Final) = f.state := rfl

theorem trainCount_mono (env : Env) (max : ℤ) :
    ∀ (fuel : ℕ) (s : RunState),
      s.trainCount ≤ (stateOf (loopRun env max fuel s)).trainCount := by
  intro fuel
  induction fuel with
  | zero => intro s; simp [loopRun, stateOf]
  | succ fuel ih =>
    intro s
    rw [loopRun]
    split
    · simp [stateOf]
    · split
      · simp [stateOf, afterTrain]
      · refine le_trans ?_ (ih (afterSample env (afterTrain env s)))
        simp [afterSample, afterTrain]

theorem trainCount_pos (env : Env) (ps : List Param) (max : ℤ) (fuel : ℕ)
    (hmax : max ≠ 0) (hfuel : 1 ≤ fuel) :
    1 ≤ (stateOf (loopRun env max fuel (initState ps))).trainCount := by
  obtain ⟨fuel, rfl⟩ : ∃ n, fuel = n + 1 := ⟨fuel - 1, by omega⟩
  rw [loopRun]
  rw [if_neg (by simpa [initState] using hmax)]
  split
  · simp [stateOf, afterTrain, initState]
  · refine le_trans ?_ (trainCount_mono env max fuel (afterSample env (afterTrain env (initState ps))))
    simp [afterSample, afterTrain, initState]

theorem loopRun_total (env : Env) (max : ℕ) :
    ∀ (fuel : ℕ) (s : RunState), s.iter ≤ max → max - s.iter < fuel →
      ∃ f, loopRun env (max : ℤ) fuel s = Sum.inr f := by
  intro fuel
  induction fuel with
  | zero => intro s h1 h2; omega
  | succ fuel ih =>
    intro s h1 h2
    rw [loopRun]
    by_cases heq : (max : ℤ) = (s.iter : ℤ)
    · rw [if_pos heq]
      exact ⟨_, rfl⟩
    · rw [if_neg heq]
      have hne : s.iter ≠ max := fun h => heq (by exact_mod_cast h.symm)
      split
      · exact ⟨_, rfl⟩
      · apply ih
        · simp only [afterSample, afterTrain]
          omega
        · simp only [afterSample, afterTrain]
          omega

theorem loopRun_iter_le (env : Env) (max : ℕ) :
    ∀ (fuel : ℕ) (s : RunState) (f : Final),
      loopRun env (max : ℤ) fuel s = Sum.inr f → s.iter ≤ max →
      f.state.iter ≤ max := by
  intro fuel
  induction fuel with
  | zero => intro s f h _; simp [loopRun] at h
  | succ fuel ih =>
    intro s f h h1
    rw [loopRun] at h
    by_cases heq : (max : ℤ) = (s.iter : ℤ)
    · rw [if_pos heq] at h
      cases h
      exact h1
    · rw [if_neg heq] at h
      have hne : s.iter ≠ max := fun hx => heq (by exact_mod_cast hx.symm)
      revert h
      split
      · intro h
        cases h
        simp only [afterTrain]
        omega
      · intro h
        refine ih (afterSample env (afterTrain env s)) f h ?_
        simp only [afterSample, afterTrain]
        omega

theorem loopRun_accs_from (env : Env) (max : ℤ) (P : ℚ → Prop)
    (hP : ∀ i, P (env.acc i)) :
    ∀ (fuel : ℕ) (s : RunState) (f : Final),
      loopRun env max fuel s = Sum.inr f →
      (∀ a ∈ s.accs, P a) → ∀ a ∈ f.state.accs, P a := by
  intro fuel
  induction fuel with
  | zero => intro s f h _; simp [loopRun] at h
  | succ fuel ih =>
    intro s f h hs
    rw [loopRun] at h
    revert h
    split
    · intro h
      cases h
      exact hs
    · split
      · intro h
        cases h
        intro a ha
        simp only [afterTrain, List.mem_append, List.mem_singleton] at ha
        rcases ha with ha | ha
        · exact hs a ha
        · subst ha
          exact hP _
      · intro h
        refine ih (afterSample env (afterTrain env s)) f h ?_
        intro a ha
        simp only [afterSample, afterTrain, List.mem_append, List.mem_singleton] at ha
        rcases ha with ha | ha
        · exact hs a ha
        · subst ha
          exact hP _

/-- Characterization of every terminated run that starts from a loop-head
state: either the loop ran to `max_num_iters` with every recorded
accuracy at or above the threshold, or it stopped with the convergence
break at the first iteration whose accuracy fell below 0.55, having
trained there but not sampled. -/
theorem loopRun_char (env : Env) (max : ℤ) :
    ∀ (fuel : ℕ) (s : RunState) (f : Final),
      loopRun env max fuel s = Sum.inr f →
      s.accs = accsUpTo env s.iter →
      s.trainCount = s.iter →
      s.sampleCount = s.iter →
      s.trace = fullTrace env s.iter →
      (∀ j, j < s.iter → ¬ env.acc (j + 1) < 11/20) →
      (f.status = Status.maxIters ∧
        f.state.accs = accsUpTo env f.state.iter ∧
        f.state.trainCount = f.state.iter ∧
        f.state.sampleCount = f.state.iter ∧
        f.state.trace = fullTrace env f.state.iter ∧
        (∀ j, j < f.state.iter → ¬ env.acc (j + 1) < 11/20) ∧
        max = (f.state.iter : ℤ)) ∨
      (f.status = Status.converged ∧ ∃ k,
        f.state.iter = k + 1 ∧
        env.acc (k + 1) < 11/20 ∧
        (∀ j, j < k → ¬ env.acc (j + 1) < 11/20) ∧
        f.state.accs = accsUpTo env (k + 1) ∧
        f.state.trainCount = k + 1 ∧
        f.state.sampleCount = k ∧
        f.state.trace = fullTrace env k ++ [Event.train (k + 1) (env.acc (k + 1))]) := by
  intro fuel
  induction fuel with
  | zero => intro s f h; simp [loopRun] at h
  | succ fuel ih =>
    intro s f h haccs htrain hsample htrace hnoconv
    simp only [loopRun] at h
    split at h
    next hcond =>
      cases h
      exact Or.inl ⟨rfl, haccs, htrain, hsample, htrace, hnoconv, hcond⟩
    next hcond =>
      split at h
      next hacc =>
        cases h
        refine Or.inr ⟨rfl, s.iter, rfl, hacc, hnoconv, ?_, ?_, ?_, ?_⟩
        · simp only [afterTrain, haccs, accsUpTo_succ]
        · simp only [afterTrain, htrain]
        · simp only [afterTrain, hsample]
        · simp only [afterTrain, htrace]
      next hacc =>
        refine ih (afterSample env (afterTrain env s)) f h ?_ ?_ ?_ ?_ ?_
        · simp only [afterSample, afterTrain, haccs, accsUpTo_succ]
        · simp only [afterSample, afterTrain, htrain]
        · simp only [afterSample, afterTrain, hsample]
        · simp only [afterSample, afterTrain, htrace, fullTrace_succ, List.append_assoc,
            List.singleton_append, List.cons_append, List.nil_append]
        · intro j hj
          rcases Nat.lt_succ_iff_lt_or_eq.mp (by simpa [afterSample, afterTrain] using hj) with hj | hj
          · exact hnoconv j hj
          · subst hj
            exact hacc

/-- Default parameter used only as a `getD` fallback in statements. -/
def defParam : Param :=
  ⟨"", false, 0, 0, 0, 0, []⟩

theorem loopRun_store (env : Env) (max : ℤ) (ps : List Param) :
    ∀ (fuel : ℕ) (s : RunState) (f : Final),
      loopRun env max fuel s = Sum.inr f →
      s.sampleCount = s.iter →
      s.params = paramsAt env ps s.sampleCount →
      f.state.params = paramsAt env ps f.state.sampleCount := by
  intro fuel
  induction fuel with
  | zero => intro s f h; simp [loopRun] at h
  | succ fuel ih =>
    intro s f h hsc hps
    simp only [loopRun] at h
    split at h
    next =>
      cases h
      exact hps
    next =>
      split at h
      next =>
        cases h
        exact hps
      next =>
        refine ih (afterSample env (afterTrain env s)) f h ?_ ?_
        · simp only [afterSample, afterTrain, hsc]
        · simp only [afterSample, afterTrain, hsc, hps, paramsAt]

theorem updateParam_updateParam (p : Param) (a1 : List ℚ) (b1 : ℚ) (a2 : List ℚ) (b2 : ℚ) :
    updateParam (updateParam p a1 b1) a2 b2 = updateParam p a2 b2 := rfl

theorem zipWith_updateParam_twice :
    ∀ (ps : List Param) (e1 e2 : List (List ℚ × ℚ)), ps.length ≤ e1.length →
      List.zipWith (fun p d => updateParam p d.1 d.2)
        (List.zipWith (fun p d => updateParam p d.1 d.2) ps e1) e2 =
      List.zipWith (fun p d => updateParam p d.1 d.2) ps e2 := by
  intro ps
  induction ps with
  | nil => intro e1 e2 _; simp
  | cons p ps ih =>
    intro e1 e2 h
    cases e1 with
    | nil => simp at h
    | cons d1 e1 =>
      cases e2 with
      | nil => simp
      | cons d2 e2 =>
        simp only [List.zipWith_cons_cons]
        rw [ih e1 e2 (by simpa using h), updateParam_updateParam]

theorem paramsAt_eq (env : Env) (ps : List Param)
    (hlen : ∀ i, ps.length ≤ ((env.samples i).zip (env.stepSize i)).length) :
    ∀ k, paramsAt env ps (k + 1) =
      List.zipWith (fun p d => updateParam p d.1 d.2) ps
        ((env.samples (k + 1)).zip (env.stepSize (k + 1))) := by
  intro k
  induction k with
  | zero => rfl
  | succ k ih =>
    show List.zipWith _ (paramsAt env ps (k + 1)) _ = _
    rw [ih]
    exact zipWith_updateParam_twice ps _ _ (hlen (k + 1))

/-! ### Claims -/

/-- C1: for every run under the threshold policy, the discriminator is
trained and its validation accuracy recorded before any sampling in each
iteration, and if the accuracy recorded at iteration i is below the
convergence threshold (0.55), then the run stops at iteration i with
status CONVERGED and no MCMC sampling phase executes at iteration i or
any later iteration.  Index `i` is the 0-based position into the
accuracy history, so `accs.getD i 0` is the accuracy recorded at
iteration `i + 1`; the conclusions state that the run's status is
CONVERGED, that the history ends at that iteration, that exactly the
iterations `1..i` (those strictly before the converging one) sampled,
and that each sampled iteration's `train` event precedes its `sample`
event in the trace. -/
theorem C1_threshold_convergence (env : Env) (ps : List Param) (max : ℤ)
    (fuel : ℕ) (f : Final) (i : ℕ)
    (hrun : loopRun env max fuel (initState ps) = Sum.inr f)
    (hi : i < f.state.accs.length)
    (hlow : f.state.accs.getD i 0 < 11/20) :
    f.status = Status.converged ∧
    f.state.accs.length = i + 1 ∧
    f.state.sampleCount = i ∧
    (∀ n, Event.sample n ∈ f.state.trace → n ≤ i) ∧
    (∀ n, Event.sample n ∈ f.state.trace →
      List.Sublist [Event.train n (env.acc n), Event.sample n] f.state.trace) := by
  have hchar := loopRun_char env max fuel (initState ps) f hrun rfl rfl rfl rfl
    (by intro j hj; simp [initState] at hj)
  rcases hchar with ⟨_, haccs, _, _, _, hnoconv, _⟩ |
    ⟨hstatus, k, hiter, hacck, hnoconv, haccs, htrain, hsample, htrace⟩
  · rw [haccs] at hi hlow
    rw [length_accsUpTo] at hi
    rw [getD_accsUpTo env hi] at hlow
    exact absurd hlow (hnoconv i hi)
  · have hik : i = k := by
      rw [haccs] at hi hlow
      rw [length_accsUpTo] at hi
      rw [getD_accsUpTo env hi] at hlow
      by_contra hne
      exact hnoconv i (by omega) hlow
    subst hik
    refine ⟨hstatus, by rw [haccs, length_accsUpTo], hsample, ?_, ?_⟩
    · intro n hn
      rw [htrace] at hn
      rcases List.mem_append.mp hn with hn | hn
      · exact (sample_mem_fullTrace env i hn).2
      · simp at hn
    · intro n hn
      rw [htrace] at hn
      rcases List.mem_append.mp hn with hn | hn
      · have hb := sample_mem_fullTrace env i hn
        rw [htrace]
        exact (train_sample_sublist env hb.1 i hb.2).trans (List.sublist_append_left _ _)
      · simp at hn

/-- Witness for C1 at the concrete `envDrop` run: accuracy 0.6 then 0.4,
`max_num_iters = 3`; the accuracy at history position 1 (iteration 2) is
below the threshold, and the run stopped there with status CONVERGED
after exactly one sampling phase. -/
theorem C1_witness :
    loopRun envDrop 3 5 (initState [testParam]) = Sum.inr finalDrop ∧
    1 < finalDrop.state.accs.length ∧
    finalDrop.state.accs.getD 1 0 < 11/20 ∧
    (finalDrop.status = Status.converged ∧
      finalDrop.state.accs.length = 1 + 1 ∧
      finalDrop.state.sampleCount = 1 ∧
      (∀ n, Event.sample n ∈ finalDrop.state.trace → n ≤ 1) ∧
      (∀ n, Event.sample n ∈ finalDrop.state.trace →
        List.Sublist [Event.train n (envDrop.acc n), Event.sample n]
          finalDrop.state.trace)) :=
  have h1 : loopRun envDrop 3 5 (initState [testParam]) = Sum.inr finalDrop := by
    norm_num [loopRun, afterTrain, afterSample, initState, envDrop, finalDrop, testParam,
      drawnParam, updateParam, npMedianQ, sortQ, insertSorted]
  have h2 : 1 < finalDrop.state.accs.length := by norm_num [finalDrop]
  have h3 : finalDrop.state.accs.getD 1 0 < 11/20 := by norm_num [finalDrop]
  ⟨h1, h2, h3, C1_threshold_convergence envDrop [testParam] 3 5 finalDrop 1 h1 h2 h3⟩

/-- Counterexample to C5: `max_num_iters` is an arbitrary Python integer
(`argparse` type `int`), and with `max_num_iters = -1` the loop guard
`max_num_iters != mcmcgan.iter` of line 70 never fails: after 3 executed
iterations (fuel 3) the loop is still running with `iter = 3`, so the
loop neither terminates within `max_num_iters` iterations nor at all
while accuracies stay at or above the threshold. -/
theorem C5_counterexample :
    (loopRun envHigh (-1) 3 (initState [testParam])).isLeft = true ∧
    (stateOf (loopRun envHigh (-1) 3 (initState [testParam]))).iter = 3 := by
  norm_num [loopRun, afterTrain, afterSample, initState, stateOf, envHigh]

/-- C5 (amended): for every run with a nonnegative `max_num_iters`, the
iteration loop terminates after at most `max_num_iters` iterations, and,
given the spec's contract that `fit` reports accuracies in [0, 1], every
recorded validation accuracy lies in [0, 1]. -/
theorem C5_amended (env : Env) (ps : List Param) (max : ℕ)
    (hacc : ∀ i, 0 ≤ env.acc i ∧ env.acc i ≤ 1) :
    ∃ f, loopRun env (max : ℤ) (max + 1) (initState ps) = Sum.inr f ∧
      f.state.iter ≤ max ∧ f.state.trainCount ≤ max ∧
      ∀ a ∈ f.state.accs, 0 ≤ a ∧ a ≤ 1 := by
  obtain ⟨f, hf⟩ := loopRun_total env max (max + 1) (initState ps)
    (by simp [initState]) (by simp [initState])
  have hiter : f.state.iter ≤ max :=
    loopRun_iter_le env max (max + 1) _ f hf (by simp [initState])
  have htc : f.state.trainCount = f.state.iter := by
    have hchar := loopRun_char env (max : ℤ) (max + 1) (initState ps) f hf rfl rfl rfl rfl
      (by intro j hj; simp [initState] at hj)
    rcases hchar with ⟨_, _, htrain, _⟩ | ⟨_, k, hiter2, _, _, _, htrain, _⟩
    · exact htrain
    · rw [htrain, hiter2]
  refine ⟨f, hf, hiter, by rw [htc]; exact hiter, ?_⟩
  exact loopRun_accs_from env (max : ℤ) (fun a => 0 ≤ a ∧ a ≤ 1) hacc (max + 1) _ f hf
    (by intro a ha; simp [initState] at ha)

/-- Witness for C5 (amended) at `envHigh` with `max_num_iters = 1`. -/
theorem C5_witness :
    (∀ i, 0 ≤ envHigh.acc i ∧ envHigh.acc i ≤ 1) ∧
    (∃ f, loopRun envHigh ((1 : ℕ) : ℤ) (1 + 1) (initState [testParam]) = Sum.inr f ∧
      f.state.iter ≤ 1 ∧ f.state.trainCount ≤ 1 ∧
      ∀ a ∈ f.state.accs, 0 ≤ a ∧ a ≤ 1) :=
  have h : ∀ i, 0 ≤ envHigh.acc i ∧ envHigh.acc i ≤ 1 := fun i => by norm_num [envHigh]
  ⟨h, C5_amended envHigh [testParam] 1 h⟩

/-- C4: if the discriminator reports an accuracy at or above the
threshold at iteration 1 and accuracy 0.4 at iteration 2, the run halts
after iteration 2 with status CONVERGED, having performed exactly 2
training phases and exactly 1 sampling phase.  The loop guard must let
both iterations start, i.e. `max_num_iters` is neither 0 nor 1 (the
scenario presupposes a second discriminator report). -/
theorem C4_scenarioB (env : Env) (ps : List Param) (max : ℤ)
    (h0 : max ≠ 0) (h1 : max ≠ 1)
    (hacc1 : 11/20 ≤ env.acc 1) (hacc2 : env.acc 2 = 2/5) :
    ∃ f, loopRun env max 2 (initState ps) = Sum.inr f ∧
      f.status = Status.converged ∧
      f.state.iter = 2 ∧ f.state.trainCount = 2 ∧ f.state.sampleCount = 1 := by
  refine ⟨⟨Status.converged,
    afterTrain env (afterSample env (afterTrain env (initState ps)))⟩, ?_, rfl, ?_, ?_, ?_⟩
  · simp only [loopRun]
    rw [if_neg (by simpa [initState] using h0)]
    rw [if_neg (by simp only [initState]; norm_num; exact hacc1)]
    rw [if_neg (by simp [afterSample, afterTrain, initState]; exact_mod_cast h1)]
    rw [if_pos (by simp [afterSample, afterTrain, initState, hacc2]; norm_num)]
  · simp [afterTrain, afterSample, initState]
  · simp [afterTrain, afterSample, initState]
  · simp [afterTrain, afterSample, initState]

/-- Witness for C4 at the concrete `envDrop` run with
`max_num_iters = 3`. -/
theorem C4_witness :
    ((3 : ℤ) ≠ 0 ∧ (3 : ℤ) ≠ 1 ∧ 11/20 ≤ envDrop.acc 1 ∧ envDrop.acc 2 = 2/5) ∧
    (∃ f, loopRun envDrop 3 2 (initState [testParam]) = Sum.inr f ∧
      f.status = Status.converged ∧
      f.state.iter = 2 ∧ f.state.trainCount = 2 ∧ f.state.sampleCount = 1) :=
  have e0 : (3 : ℤ) ≠ 0 := by norm_num
  have e1 : (3 : ℤ) ≠ 1 := by norm_num
  have e2 : 11/20 ≤ envDrop.acc 1 := by norm_num [envDrop]
  have e3 : envDrop.acc 2 = 2/5 := by norm_num [envDrop]
  ⟨⟨e0, e1, e2, e3⟩, C4_scenarioB envDrop [testParam] 3 e0 e1 e2 e3⟩

/-- Counterexample to C3: a discriminator reporting accuracy exactly 0.5
at every iteration is below the 0.55 convergence threshold of line 101,
so the `envHalf` run with `max_num_iters = 3` takes the convergence
break in iteration 1: one training phase (not 3), zero sampling phases
(not 3), an early stop, and the final estimate report of line 145 fails
with an unbound-name error instead of producing finite summaries. -/
theorem C3_counterexample :
    loopRun envHalf 3 5 (initState [testParam]) =
      Sum.inr ⟨Status.converged,
        ⟨1, [1/2], [testParam], none, 1, 0, [Event.train 1 (1/2)]⟩⟩ ∧
    finalReport ⟨Status.converged,
      ⟨1, [1/2], [testParam], none, 1, 0, [Event.train 1 (1/2)]⟩⟩ =
      Except.error "NameError: medians" := by
  constructor
  · norm_num [loopRun, afterTrain, afterSample, initState, envHalf]
  · rfl

/-- C3 (amended): if the discriminator reports validation accuracy
exactly 0.5 at every iteration and `max_num_iters` is 3 with the
threshold policy enabled, the run performs exactly 1 training phase and
0 sampling phases, stops early at iteration 1 with status CONVERGED
(0.5 is below the 0.55 threshold), and the final estimate report raises
an unbound-name error instead of producing summary outputs. -/
theorem C3_amended (env : Env) (ps : List Param) (fuel : ℕ)
    (hacc : ∀ i, env.acc i = 1/2) (hfuel : 1 ≤ fuel) :
    ∃ f, loopRun env 3 fuel (initState ps) = Sum.inr f ∧
      f.status = Status.converged ∧
      f.state.trainCount = 1 ∧ f.state.sampleCount = 0 ∧
      finalReport f = Except.error "NameError: medians" := by
  obtain ⟨fuel, rfl⟩ : ∃ n, fuel = n + 1 := ⟨fuel - 1, by omega⟩
  refine ⟨⟨Status.converged, afterTrain env (initState ps)⟩, ?_, rfl, ?_, ?_, ?_⟩
  · simp only [loopRun]
    rw [if_neg (by norm_num [initState])]
    rw [if_pos (by norm_num [initState, hacc])]
  · simp [afterTrain, initState]
  · simp [afterTrain, initState]
  · simp [finalReport, afterTrain, initState]

/-- Witness for C3 (amended) at the concrete `envHalf` run. -/
theorem C3_witness :
    (∀ i, envHalf.acc i = 1/2) ∧ (1 : ℕ) ≤ 5 ∧
    (∃ f, loopRun envHalf 3 5 (initState [testParam]) = Sum.inr f ∧
      f.status = Status.converged ∧
      f.state.trainCount = 1 ∧ f.state.sampleCount = 0 ∧
      finalReport f = Except.error "NameError: medians") :=
  have h : ∀ i, envHalf.acc i = 1/2 := fun _ => rfl
  ⟨h, by norm_num, C3_amended envHalf [testParam] 5 h (by norm_num)⟩

theorem percQ_low_evaluation : percQ [0, 8] (5/2) = 1/5 := by
  have h : ⌊(5:ℚ)/2/100 * (((2:ℕ):ℚ) - 1)⌋ = 0 := by
    rw [Int.floor_eq_iff]
    norm_num
  simp [percQ, sortQ, insertSorted]
  rw [Int.fract]
  norm_num [h]

theorem percQ_high_evaluation : percQ [0, 8] (195/2) = 39/5 := by
  have h : ⌊(195:ℚ)/2/100 * (((2:ℕ):ℚ) - 1)⌋ = 0 := by
    rw [Int.floor_eq_iff]
    norm_num
  simp [percQ, sortQ, insertSorted]
  rw [Int.fract]
  norm_num [h]

/-- Counterexample to C2: after the single completed sampling phase of
the `envHigh` run (draws [0, 8] for the one inferable parameter, final
kernel step size 1), the stored parameter is `drawnParam`: its point
estimate is 8, the last draw (not the posterior median 4); its step size
is 1, the kernel's final adapted step size (its square 1 differs from
the posterior variance 16, so it is not the posterior standard
deviation 4); and its bounds are the unchanged (0, 100) rather than the
2.5/97.5 percentiles 1/5 and 39/5.  Every clause of the spec's
write-back fails. -/
theorem C2_counterexample :
    (stateOf (loopRun envHigh 1 2 (initState [testParam]))).params = [drawnParam] ∧
    ¬ specWriteBack drawnParam [0, 8] ∧
    drawnParam.init ≠ npMedianQ [0, 8] ∧
    drawnParam.step_size ^ 2 ≠ varQ [0, 8] ∧
    drawnParam.lower ≠ percQ [0, 8] (5/2) ∧
    drawnParam.upper ≠ percQ [0, 8] (195/2) := by
  refine ⟨?_, ?_, ?_, ?_, ?_, ?_⟩
  · norm_num [loopRun, afterTrain, afterSample, initState, stateOf, envHigh, testParam,
      drawnParam, updateParam, npMedianQ, sortQ, insertSorted]
  · intro h
    have hinit := h.1
    norm_num [drawnParam, npMedianQ, sortQ, insertSorted] at hinit
  · norm_num [drawnParam, npMedianQ, sortQ, insertSorted]
  · norm_num [drawnParam, varQ, meanQ]
  · rw [percQ_low_evaluation]
    norm_num [drawnParam]
  · rw [percQ_high_evaluation]
    norm_num [drawnParam]

/-- C2 (amended): after every iteration that completes an MCMC sampling
phase, each inferable parameter's new point estimate is the LAST sample
of that iteration's chain (not the posterior median), its new step size
is the kernel's final adapted step size for that iteration (not the
posterior standard deviation), its stored proposal trace becomes that
iteration's draws, and its bounds are left unchanged (no percentile
write-back exists in the code).  `f.state.sampleCount` is the index of
the last iteration that completed a sampling phase. -/
theorem C2_amended (env : Env) (ps : List Param) (max : ℤ) (fuel : ℕ) (f : Final)
    (hrun : loopRun env max fuel (initState ps) = Sum.inr f)
    (hlen : ∀ i, ps.length ≤ ((env.samples i).zip (env.stepSize i)).length)
    (hpos : 1 ≤ f.state.sampleCount) :
    ∀ j, j < f.state.params.length →
      (f.state.params.getD j defParam).init =
        ((env.samples f.state.sampleCount).getD j []).getLast?.getD 0 ∧
      (f.state.params.getD j defParam).step_size =
        (env.stepSize f.state.sampleCount).getD j 0 ∧
      (f.state.params.getD j defParam).proposals =
        (env.samples f.state.sampleCount).getD j [] ∧
      (f.state.params.getD j defParam).lower = (ps.getD j defParam).lower ∧
      (f.state.params.getD j defParam).upper = (ps.getD j defParam).upper := by
  intro j hj
  have hstore := loopRun_store env max ps fuel (initState ps) f hrun rfl rfl
  obtain ⟨m, hm⟩ : ∃ m, f.state.sampleCount = m + 1 := ⟨f.state.sampleCount - 1, by omega⟩
  have heq : f.state.params = List.zipWith (fun p d => updateParam p d.1 d.2) ps
      ((env.samples (m + 1)).zip (env.stepSize (m + 1))) := by
    rw [hstore, hm, paramsAt_eq env ps hlen m]
  rw [heq] at hj
  rw [hm, heq]
  have hjp : j < ps.length := by
    rw [List.length_zipWith] at hj
    omega
  have hjz : j < ((env.samples (m + 1)).zip (env.stepSize (m + 1))).length := by
    rw [List.length_zipWith] at hj
    omega
  have hjs : j < (env.samples (m + 1)).length := by
    rw [List.length_zip] at hjz
    omega
  have hjt : j < (env.stepSize (m + 1)).length := by
    rw [List.length_zip] at hjz
    omega
  rw [List.getD_eq_getElem _ _ hj, List.getD_eq_getElem _ _ hjp,
    List.getD_eq_getElem _ _ hjs, List.getD_eq_getElem _ _ hjt]
  rw [List.getElem_zipWith, List.getElem_zip]
  simp [updateParam]

/-- Witness for C2 (amended) at the concrete `envHigh` run with
`max_num_iters = 1`. -/
theorem C2_witness :
    loopRun envHigh 1 2 (initState [testParam]) = Sum.inr finalHigh ∧
    (∀ i, ([testParam] : List Param).length ≤
      ((envHigh.samples i).zip (envHigh.stepSize i)).length) ∧
    1 ≤ finalHigh.state.sampleCount ∧
    (∀ j, j < finalHigh.state.params.length →
      (finalHigh.state.params.getD j defParam).init =
        ((envHigh.samples finalHigh.state.sampleCount).getD j []).getLast?.getD 0 ∧
      (finalHigh.state.params.getD j defParam).step_size =
        (envHigh.stepSize finalHigh.state.sampleCount).getD j 0 ∧
      (finalHigh.state.params.getD j defParam).proposals =
        (envHigh.samples finalHigh.state.sampleCount).getD j [] ∧
      (finalHigh.state.params.getD j defParam).lower =
        (([testParam] : List Param).getD j defParam).lower ∧
      (finalHigh.state.params.getD j defParam).upper =
        (([testParam] : List Param).getD j defParam).upper) :=
  have h1 : loopRun envHigh 1 2 (initState [testParam]) = Sum.inr finalHigh := by
    norm_num [loopRun, afterTrain, afterSample, initState, envHigh, finalHigh, testParam,
      drawnParam, updateParam, npMedianQ, sortQ, insertSorted]
  have h2 : ∀ i, ([testParam] : List Param).length ≤
      ((envHigh.samples i).zip (envHigh.stepSize i)).length := fun i => by
    norm_num [envHigh]
  have h3 : 1 ≤ finalHigh.state.sampleCount := by norm_num [finalHigh]
  ⟨h1, h2, h3, C2_amended envHigh [testParam] 1 2 finalHigh h1 h2 h3⟩

/-- C6 (code bug): with `max_num_iters = 0` the loop guard of line 70
fails immediately, so no training and no sampling occur and the
Parameter Store still holds the unestimated initial guesses; but instead
of returning them with a NO_OP status, the driver reaches
`print(medians)` at line 145 with the name `medians` unbound and raises
a NameError (no NO_OP status exists anywhere in the code). -/
theorem C6_code_bug :
    loopRun envHigh 0 1 (initState [testParam]) =
      Sum.inr ⟨Status.maxIters, initState [testParam]⟩ ∧
    (initState [testParam]).trainCount = 0 ∧
    (initState [testParam]).sampleCount = 0 ∧
    (initState [testParam]).params = [testParam] ∧
    finalReport ⟨Status.maxIters, initState [testParam]⟩ =
      Except.error "NameError: medians" := by
  refine ⟨?_, rfl, rfl, rfl, rfl⟩
  simp only [loopRun]
  rw [if_pos (by norm_num [initState])]

/-- Counterexample to C7: with zero inferable parameters (`genob`
declares none) and `max_num_iters = 1`, the `envEmpty` run performs a
full training phase (and even a sampling phase) and terminates normally;
no configuration error is raised before training, because lines 61-63
only print the parameter list and perform no check. -/
theorem C7_counterexample :
    loopRun envEmpty 1 2 (initState []) =
      Sum.inr ⟨Status.maxIters,
        ⟨1, [3/5], [], some [], 1, 1, [Event.train 1 (3/5), Event.sample 1]⟩⟩ ∧
    1 ≤ (stateOf (loopRun envEmpty 1 2 (initState []))).trainCount := by
  constructor
  · norm_num [loopRun, afterTrain, afterSample, initState, envEmpty]
  · norm_num [loopRun, afterTrain, afterSample, initState, stateOf, envEmpty]

/-- C7 (amended): the driver performs no zero-inferable-parameter check,
so with zero inferable parameters and a nonzero `max_num_iters` the run
proceeds straight into discriminator training: at least one training
phase executes and no configuration error precedes it. -/
theorem C7_amended (env : Env) (max : ℤ) (fuel : ℕ)
    (hmax : max ≠ 0) (hfuel : 1 ≤ fuel) :
    1 ≤ (stateOf (loopRun env max fuel (initState []))).trainCount :=
  trainCount_pos env [] max fuel hmax hfuel

/-- Witness for C7 (amended) at the concrete `envEmpty` run. -/
theorem C7_witness :
    ((1 : ℤ) ≠ 0 ∧ (1 : ℕ) ≤ 2) ∧
    1 ≤ (stateOf (loopRun envEmpty 1 2 (initState []))).trainCount :=
  have hm : (1 : ℤ) ≠ 0 := by norm_num
  have hf : (1 : ℕ) ≤ 2 := by norm_num
  ⟨⟨hm, hf⟩, C7_amended envEmpty 1 2 hm hf⟩

/-- Counterexample to C8: supplying a serialized pretrained
discriminator path (`cfgWithModel`) changes nothing — the run is
identical to the run without it (`cfgNoModel`), because the function
body never reads the `discriminator_model` argument — and a new
discriminator is initialized and trained anyway. -/
theorem C8_counterexample :
    run envHigh cfgWithModel 2 = run envHigh cfgNoModel 2 ∧
    1 ≤ (stateOf (run envHigh cfgWithModel 2)).trainCount := by
  constructor
  · rfl
  · norm_num [run, loopRun, afterTrain, afterSample, initState, stateOf, envHigh,
      cfgWithModel]

/-- C8 (amended): the `discriminator_model` input is accepted by the
driver's signature (line 19) but never used; the run's outcome is
independent of it, and whenever the loop runs at all (nonzero
`max_num_iters`), a fresh discriminator is initialized and trained
regardless of the supplied model. -/
theorem C8_amended (env : Env) (cfg : Config) (m : Option String) (fuel : ℕ) :
    run env { cfg with discriminator_model := m } fuel = run env cfg fuel ∧
    (cfg.max_num_iters ≠ 0 → 1 ≤ fuel →
      1 ≤ (stateOf (run env cfg fuel)).trainCount) := by
  constructor
  · rfl
  · intro hmax hfuel
    exact trainCount_pos env cfg.params cfg.max_num_iters fuel hmax hfuel

/-- Witness for C8 (amended) at the concrete `envHigh` run. -/
theorem C8_witness :
    (run envHigh { cfgNoModel with discriminator_model := some "disc.hdf5" } 2 =
        run envHigh cfgNoModel 2 ∧
      (cfgNoModel.max_num_iters ≠ 0 → 1 ≤ 2 →
        1 ≤ (stateOf (run envHigh cfgNoModel 2)).trainCount)) ∧
    cfgNoModel.max_num_iters ≠ 0 ∧ (1 : ℕ) ≤ 2 ∧
    1 ≤ (stateOf (run envHigh cfgNoModel 2)).trainCount :=
  have h := C8_amended envHigh cfgNoModel (some "disc.hdf5") 2
  have hm : cfgNoModel.max_num_iters ≠ 0 := by norm_num [cfgNoModel]
  have hf : (1 : ℕ) ≤ 2 := by norm_num
  ⟨h, hm, hf, h.2 hm hf⟩

/-- Counterexample to C9: two full runs with identical configuration
`cfgNoModel` (same top-level seed 42, same parameters, same
`max_num_iters`) but different ambient torch-stream states 0 and 1
produce different parameter-estimate summaries, because the source seeds
only NumPy (line 31) and the MCMC kernel (line 49) from the top-level
seed, never the torch stream behind weight initialization and batch
shuffling. -/
theorem C9_counterexample :
    estimateSummaries (runSeeded torchSensitive cfgNoModel 0 2) ≠
      estimateSummaries (runSeeded torchSensitive cfgNoModel 1 2) := by
  norm_num [estimateSummaries, runSeeded, run, loopRun, afterTrain, afterSample, initState,
    stateOf, torchSensitive, cfgNoModel, testParam, updateParam, npMedianQ, sortQ,
    insertSorted]

/-- C9 (amended): the sequence of parameter-estimate summaries is a
deterministic function of the configuration (seed included) together
with the ambient torch-stream state: two full runs agree bit-for-bit
whenever both the configuration and that ambient state coincide — the
top-level seed alone does not suffice. -/
theorem C9_amended (b : RngBehavior) (cfg1 cfg2 : Config) (t1 t2 fuel : ℕ)
    (hc : cfg1 = cfg2) (ht : t1 = t2) :
    estimateSummaries (runSeeded b cfg1 t1 fuel) =
      estimateSummaries (runSeeded b cfg2 t2 fuel) := by
  rw [hc, ht]

/-- Witness for C9 (amended) at the concrete behavior and
configuration. -/
theorem C9_witness :
    (cfgNoModel = cfgNoModel ∧ (0 : ℕ) = 0) ∧
    estimateSummaries (runSeeded torchSensitive cfgNoModel 0 2) =
      estimateSummaries (runSeeded torchSensitive cfgNoModel 0 2) :=
  ⟨⟨rfl, rfl⟩, C9_amended torchSensitive cfgNoModel cfgNoModel 0 0 2 rfl rfl⟩

/-- C10: if the convergence break fires in the very first iteration (the
first recorded validation accuracy is below 0.55) or the loop body never
runs (`max_num_iters = 0`), then no sampling phase has completed, the
`medians` name assigned only at line 127 is still unbound, and the final
estimate report of lines 144-145 raises an unbound-name error instead of
printing estimates. -/
theorem C10_nameError (env : Env) (ps : List Param) (max : ℤ) (fuel : ℕ)
    (hfuel : 1 ≤ fuel) (h : max = 0 ∨ env.acc 1 < 11/20) :
    ∃ f, loopRun env max fuel (initState ps) = Sum.inr f ∧
      f.state.sampleCount = 0 ∧ f.state.medians = none ∧
      finalReport f = Except.error "NameError: medians" := by
  obtain ⟨fuel, rfl⟩ : ∃ n, fuel = n + 1 := ⟨fuel - 1, by omega⟩
  by_cases h0 : max = 0
  · refine ⟨⟨Status.maxIters, initState ps⟩, ?_, rfl, rfl, rfl⟩
    simp only [loopRun]
    rw [if_pos (by norm_num [initState, h0])]
  · have hacc : env.acc 1 < 11/20 := h.resolve_left h0
    refine ⟨⟨Status.converged, afterTrain env (initState ps)⟩, ?_, ?_, ?_, ?_⟩
    · simp only [loopRun]
      rw [if_neg (by simp [initState, h0])]
      rw [if_pos (by simpa [initState] using hacc)]
    · simp [afterTrain, initState]
    · simp [afterTrain, initState]
    · simp [finalReport, afterTrain, initState]

/-- Witness for C10 at `max_num_iters = 0`. -/
theorem C10_witness :
    ((1 : ℕ) ≤ 1 ∧ ((0 : ℤ) = 0 ∨ envHigh.acc 1 < 11/20)) ∧
    (∃ f, loopRun envHigh 0 1 (initState [testParam]) = Sum.inr f ∧
      f.state.sampleCount = 0 ∧ f.state.medians = none ∧
      finalReport f = Except.error "NameError: medians") :=
  have hf : (1 : ℕ) ≤ 1 := le_refl 1
  have hd : (0 : ℤ) = 0 ∨ envHigh.acc 1 < 11/20 := Or.inl rfl
  ⟨⟨hf, hd⟩, C10_nameError envHigh [testParam] 0 1 hf hd⟩
